import Mathlib

/-!
Verification development for the pindlebot-v2 input-relay / telemetry code.

Shallow embedding of:
- src/src/utils/custom_mouse.py   (_move_arduino: delta decomposition, duration)
- src/src/utils/arduino_hid.py    (ArduinoHID._send, mouse_move_relative clamp)
- src/src/utils/humanizer.py      (Humanizer.bezier_points)
- src/src/utils/run_timer.py      (RunTimer: start_run / start / stop / end_run)
- src/src/utils/session_manager.py (SessionManager: session/break lengths, save_log)
- src/analyze_timing.py           (analyze: outlier pass)

Python machine floats are modelled as exact rationals; where the source
computes a square root (math.sqrt), the resulting distance is passed as an
explicit rational argument constrained by a hypothesis relating it to the
squared distance, which keeps every definition computable.
-/

namespace Pindle

/-! ### Delta decomposition (custom_mouse._move_arduino lines 83-88,
    arduino_hid.mouse_move_relative lines 148-152)

    step_dx = max(-127, min(127, dx)); dx -= step_dx, looping while
    abs(dx) > 0 or abs(dy) > 0.  The loop is embedded with explicit fuel
    `dx.natAbs + dy.natAbs`, which is enough since every iteration strictly
    decreases that measure. -/

/-- Clamp to the Arduino-representable range, exactly as the source writes it:
max(-127, min(127, v)). -/
def clamp127 (v : ℤ) : ℤ := max (-127) (min 127 v)

/-- The while-loop of _move_arduino, with explicit fuel. -/
def decomposeFuel : ℕ → ℤ → ℤ → List (ℤ × ℤ)
  | 0, _, _ => []
  | n + 1, dx, dy =>
    if dx = 0 ∧ dy = 0 then []
    else (clamp127 dx, clamp127 dy) ::
      decomposeFuel n (dx - clamp127 dx) (dy - clamp127 dy)

/-- The sequence of MOUSE_MOVE steps emitted for one requested delta (dx, dy). -/
def decompose (dx dy : ℤ) : List (ℤ × ℤ) :=
  decomposeFuel (dx.natAbs + dy.natAbs) dx dy

/-- Componentwise sum of a list of steps. -/
def sumSteps (l : List (ℤ × ℤ)) : ℤ × ℤ :=
  l.foldl (fun acc s => (acc.1 + s.1, acc.2 + s.2)) (0, 0)

theorem clamp127_eq (v : ℤ) :
    clamp127 v = if v ≤ -127 then -127 else if 127 ≤ v then 127 else v := by
  unfold clamp127
  rw [max_def, min_def]
  split_ifs <;> omega

theorem clamp127_bounds (v : ℤ) : -127 ≤ clamp127 v ∧ clamp127 v ≤ 127 := by
  rw [clamp127_eq]; split_ifs <;> omega

theorem residual_natAbs_lt (v : ℤ) (hv : v ≠ 0) :
    (v - clamp127 v).natAbs < v.natAbs := by
  rw [clamp127_eq]; split_ifs <;> omega

theorem residual_natAbs_le (v : ℤ) : (v - clamp127 v).natAbs ≤ v.natAbs := by
  rw [clamp127_eq]; split_ifs <;> omega

theorem clamp127_zero : clamp127 0 = 0 := by rw [clamp127_eq]; omega

theorem decomposeFuel_bounds (n : ℕ) :
    ∀ dx dy : ℤ, ∀ s ∈ decomposeFuel n dx dy,
      -127 ≤ s.1 ∧ s.1 ≤ 127 ∧ -127 ≤ s.2 ∧ s.2 ≤ 127 := by
  induction n with
  | zero => intro dx dy s hs; simp [decomposeFuel] at hs
  | succ n ih =>
    intro dx dy s hs
    rw [decomposeFuel] at hs
    split_ifs at hs with h
    · simp at hs
    · rcases List.mem_cons.mp hs with h1 | h2
      · subst h1
        exact ⟨(clamp127_bounds dx).1, (clamp127_bounds dx).2,
               (clamp127_bounds dy).1, (clamp127_bounds dy).2⟩
      · exact ih _ _ s h2

theorem sumSteps_shift : ∀ (t : List (ℤ × ℤ)) (a : ℤ × ℤ),
    t.foldl (fun acc x => (acc.1 + x.1, acc.2 + x.2)) a
      = (a.1 + (sumSteps t).1, a.2 + (sumSteps t).2)
  | [], a => by simp [sumSteps]
  | x :: xs, a => by
    have h0 : sumSteps (x :: xs)
        = (x.1 + (sumSteps xs).1, x.2 + (sumSteps xs).2) := by
      unfold sumSteps
      rw [List.foldl_cons, sumSteps_shift xs]
      simp
      exact ⟨rfl, rfl⟩
    rw [List.foldl_cons, sumSteps_shift xs, h0]
    simp only [Prod.mk.injEq]
    constructor <;> ring

theorem sumSteps_cons (s : ℤ × ℤ) (l : List (ℤ × ℤ)) :
    sumSteps (s :: l) = (s.1 + (sumSteps l).1, s.2 + (sumSteps l).2) := by
  unfold sumSteps
  rw [List.foldl_cons, sumSteps_shift l]
  simp
  exact ⟨rfl, rfl⟩

theorem decomposeFuel_sum (n : ℕ) :
    ∀ dx dy : ℤ, dx.natAbs + dy.natAbs ≤ n →
      sumSteps (decomposeFuel n dx dy) = (dx, dy) := by
  induction n with
  | zero =>
    intro dx dy h
    have hx : dx = 0 := by omega
    have hy : dy = 0 := by omega
    subst hx; subst hy
    simp [decomposeFuel, sumSteps]
  | succ n ih =>
    intro dx dy h
    rw [decomposeFuel]
    split_ifs with h0
    · rcases h0 with ⟨hx, hy⟩
      subst hx; subst hy
      simp [sumSteps]
    · have hne : dx ≠ 0 ∨ dy ≠ 0 := by tauto
      have hlt : (dx - clamp127 dx).natAbs + (dy - clamp127 dy).natAbs ≤ n := by
        rcases hne with hx | hy
        · have := residual_natAbs_lt dx hx
          have := residual_natAbs_le dy
          omega
        · have := residual_natAbs_lt dy hy
          have := residual_natAbs_le dx
          omega
      rw [sumSteps_cons, ih _ _ hlt]
      simp only [Prod.mk.injEq]
      constructor <;> ring

/-- C1: every emitted MOUSE_MOVE step for a requested delta (dx, dy) has both
components in [-127, 127], and the componentwise sum of the emitted steps is
exactly (dx, dy). -/
theorem C1_delta_decomposition (dx dy : ℤ) :
    (∀ s ∈ decompose dx dy, -127 ≤ s.1 ∧ s.1 ≤ 127 ∧ -127 ≤ s.2 ∧ s.2 ≤ 127) ∧
    sumSteps (decompose dx dy) = (dx, dy) := by
  constructor
  · exact decomposeFuel_bounds _ dx dy
  · exact decomposeFuel_sum _ dx dy (le_refl _)

/-- Witness for C1 at the concrete delta (300, -200): the first emitted step is
(127, -127), within bounds, and the steps sum back to (300, -200). -/
theorem C1_delta_decomposition_witness :
    (-127 ≤ (127 : ℤ) ∧ (127 : ℤ) ≤ 127 ∧ -127 ≤ (-127 : ℤ) ∧ (-127 : ℤ) ≤ 127) ∧
    sumSteps (decompose 300 (-200)) = (300, -200) :=
  ⟨(C1_delta_decomposition 300 (-200)).1 (127, -127) (by decide),
   (C1_delta_decomposition 300 (-200)).2⟩

/-! ### Relay protocol send path (arduino_hid._send lines 89-116)

    The serial transport is modelled by a WriteOutcome: either the
    write/flush/readline round trip succeeds and yields the stripped response
    line (a read timeout yields the empty string), or a SerialException is
    raised somewhere in the try block. -/

/-- Connection state of the ArduinoHID object: the `connected` flag.  The
source guard also checks `self.serial`/`is_open`, which are non-None and open
exactly when `connected` holds along every code path. -/
structure HIDState where
  connected : Bool
deriving DecidableEq, Repr

/-- One transport round trip: success with the (stripped) response line read
back, or a serial exception. -/
inductive WriteOutcome where
  | ok (response : String)
  | err
deriving DecidableEq

/-- The acknowledgment branch of _send (lines 100-111): response "OK" is
success, "SAFETY" is failure, an "ERR"-prefixed response is failure, anything
else (including the empty line a read timeout produces) is success. -/
def ackResult (response : String) : Bool :=
  if response = "OK" then true
  else if response = "SAFETY" then false
  else if response.startsWith "ERR" then false
  else true

/-- ArduinoHID._send: returns (acknowledged?, post-state).  Disconnected:
warn and fail without touching the transport.  A serial exception clears
`connected` and fails.  Otherwise the result follows `ackResult` when an ack
is expected and is success when not. -/
def sendCmd (st : HIDState) (expectAck : Bool) (w : WriteOutcome) :
    Bool × HIDState :=
  if st.connected = false then (false, st)
  else
    match w with
    | .err => (false, ⟨false⟩)
    | .ok response =>
        (if expectAck then ackResult response else true, st)

/-- A sequence of _send calls (each with its own expectAck flag and transport
behaviour), threading the connection state; returns the list of results and
the final state. -/
def sendMany (st : HIDState) : List (Bool × WriteOutcome) → List Bool × HIDState
  | [] => ([], st)
  | c :: cs =>
      let r := sendCmd st c.1 c.2
      let rest := sendMany r.2 cs
      (r.1 :: rest.1, rest.2)

/-- ArduinoHID.connect (lines 58-76): `connected` ends up equal to whether
opening the serial port succeeded. -/
def connect (openOk : Bool) : HIDState := ⟨openOk⟩

/-- C4: while Connected with a successful transport round trip and expectAck,
_send succeeds iff the response line is "OK", or is any string other than
"SAFETY" that is not prefixed by "ERR" (the empty timeout response included).
-/
theorem C4_ack_semantics (st : HIDState) (r : String)
    (h : st.connected = true) :
    (sendCmd st true (.ok r)).1 = true ↔
      (r = "OK" ∨ (r ≠ "SAFETY" ∧ ¬ r.startsWith "ERR")) := by
  unfold sendCmd
  rw [h]
  simp only [Bool.true_eq_false, if_false]
  unfold ackResult
  split_ifs with h1 h2 h3 <;> simp_all

/-- Witness for C4 at the connected state and the response "SAFETY": _send
fails there. -/
theorem C4_ack_semantics_witness :
    ((sendCmd ⟨true⟩ true (.ok "SAFETY")).1 = true ↔
      ("SAFETY" = "OK" ∨
        ("SAFETY" ≠ "SAFETY" ∧ ¬ String.startsWith "SAFETY" "ERR"))) :=
  C4_ack_semantics ⟨true⟩ "SAFETY" rfl

/-- C5: (1) a _send while Disconnected fails, leaves the state unchanged, and
performs no transport I/O (its result does not depend on the transport
behaviour at all); (2) a transport error during a _send while Connected
demotes the state to Disconnected and fails; (3) from a Disconnected state,
every _send of any subsequent sequence fails and the state stays
Disconnected, until a successful connect() (which alone restores
`connected := true`). -/
theorem C5_disconnected_send (st : HIDState) :
    (st.connected = false →
      (∀ a w, sendCmd st a w = (false, st)) ∧
      (∀ cs, ((sendMany st cs).1.all (fun b => b = false)) ∧
        (sendMany st cs).2 = st)) ∧
    (st.connected = true →
      ∀ a, sendCmd st a .err = (false, ⟨false⟩)) ∧
    (connect true).connected = true := by
  refine ⟨fun h => ⟨fun a w => by unfold sendCmd; rw [h]; simp, fun cs => ?_⟩,
    fun h a => by unfold sendCmd; rw [h]; simp, rfl⟩
  induction cs with
  | nil => simp [sendMany]
  | cons c cs ih =>
    have hs : sendCmd st c.1 c.2 = (false, st) := by
      unfold sendCmd; rw [h]; simp
    simp only [sendMany, hs]
    simpa using ih

/-- Witness for C5: from the Disconnected state, a concrete sequence of two
sends (one expecting an ack with a healthy transport, one with a failing
transport) both fail, and a transport error from the Connected state
disconnects. -/
theorem C5_disconnected_send_witness :
    ((∀ a w, sendCmd ⟨false⟩ a w = (false, ⟨false⟩)) ∧
      (∀ cs, ((sendMany ⟨false⟩ cs).1.all (fun b => b = false)) ∧
        (sendMany ⟨false⟩ cs).2 = ⟨false⟩)) ∧
    sendCmd ⟨true⟩ true .err = (false, ⟨false⟩) :=
  ⟨(C5_disconnected_send ⟨false⟩).1 rfl,
   (C5_disconnected_send ⟨true⟩).2.1 rfl true⟩

/-! ### Session and break lengths (session_manager lines 152-162)

    minutes = random.gauss(mean, variance); minutes = max(lo, min(hi·mean,
    minutes)); return minutes * 60.  The Gaussian draw is an arbitrary real,
    modelled as a rational parameter. -/

/-- _gaussian_session_length: clamp the drawn minutes to
max(30, min(avg*2, draw)) and convert to seconds. -/
def sessionLengthS (avgSessionMinutes draw : ℚ) : ℚ :=
  (max 30 (min (avgSessionMinutes * 2) draw)) * 60

/-- _gaussian_break_length: clamp the drawn minutes to
max(5, min(avg*3, draw)) and convert to seconds. -/
def breakLengthS (avgBreakMinutes draw : ℚ) : ℚ :=
  (max 5 (min (avgBreakMinutes * 3) draw)) * 60

/-- C8 counterexample: with a configured session mean of 10 minutes (so that
2×mean = 20 < 30), the sampled session length is 1800 s for the draw 0, which
is not ≤ 2·mean·60 = 1200 s — the claimed interval [30, 2×mean] minutes does
not contain the sample (it is empty). -/
theorem C8_counterexample :
    sessionLengthS 10 0 = 1800 ∧ ¬ sessionLengthS 10 0 ≤ 10 * 2 * 60 := by
  constructor <;> norm_num [sessionLengthS]

/-- C8 amended: whenever the clamp intervals are non-empty — the configured
session mean is at least 15 minutes and the configured break mean at least
5/3 minutes — every sampled session length lies in [30·60, 2·mean·60]
seconds and every sampled break length lies in [5·60, 3·mean·60] seconds,
for every Gaussian draw. -/
theorem C8_length_bounds (avgS avgB draw : ℚ)
    (hs : 15 ≤ avgS) (hb : 5 / 3 ≤ avgB) :
    (30 * 60 ≤ sessionLengthS avgS draw ∧
      sessionLengthS avgS draw ≤ avgS * 2 * 60) ∧
    (5 * 60 ≤ breakLengthS avgB draw ∧
      breakLengthS avgB draw ≤ avgB * 3 * 60) := by
  unfold sessionLengthS breakLengthS
  refine ⟨⟨?_, ?_⟩, ?_, ?_⟩
  · nlinarith [le_max_left (30 : ℚ) (min (avgS * 2) draw)]
  · have h1 : max 30 (min (avgS * 2) draw) ≤ avgS * 2 :=
      max_le (by linarith) (min_le_left _ _)
    linarith
  · nlinarith [le_max_left (5 : ℚ) (min (avgB * 3) draw)]
  · have h1 : max 5 (min (avgB * 3) draw) ≤ avgB * 3 :=
      max_le (by linarith) (min_le_left _ _)
    linarith

/-- Witness for C8 at the default configuration (150-minute sessions,
25-minute breaks) and the draw 0. -/
theorem C8_length_bounds_witness :
    ((30 * 60 ≤ sessionLengthS 150 0 ∧ sessionLengthS 150 0 ≤ 150 * 2 * 60) ∧
      (5 * 60 ≤ breakLengthS 25 0 ∧ breakLengthS 25 0 ≤ 25 * 3 * 60)) :=
  C8_length_bounds 150 25 0 (by norm_num) (by norm_num)

/-! ### Session run-log persistence (session_manager.save_log lines 112-136) -/

/-- One entry of the session run log (log_run lines 100-106). -/
structure RunData where
  timestamp : String
  runNumber : ℕ
  sessionRun : ℕ
  durationS : ℚ
  items : List String
deriving DecidableEq

/-- What reading the existing date-partitioned log file can yield: the file is
absent, it parses as a JSON array of records, or the read/parse raises
(json.JSONDecodeError / IOError). -/
inductive ReadResult where
  | missing
  | parsed (recs : List RunData)
  | unreadable

/-- save_log: no write at all when the buffer is empty (`none`); otherwise the
file is rewritten with `existing ++ buffer`, where `existing` is the parsed
prior contents when the file exists and parses, and `[]` otherwise. -/
def save_log (buffer : List RunData) (file : ReadResult) :
    Option (List RunData) :=
  if buffer = [] then none
  else
    let existing :=
      match file with
      | .parsed recs => recs
      | _ => []
    some (existing ++ buffer)

/-- C9: with a non-empty buffer and an unparsable (or unreadable) existing
file, save_log rewrites the file to contain exactly the buffered records —
the prior contents are discarded, not appended to (contrast the parsed
case, which appends). -/
theorem C9_unreadable_discards (buffer prior : List RunData)
    (h : buffer ≠ []) :
    save_log buffer .unreadable = some buffer ∧
    save_log buffer (.parsed prior) = some (prior ++ buffer) := by
  unfold save_log
  rw [if_neg h, if_neg h]
  exact ⟨by simp, rfl⟩

/-- Witness for C9 with a one-record buffer and a one-record prior file. -/
theorem C9_unreadable_discards_witness :
    save_log [⟨"t1", 1, 1, 10, []⟩] .unreadable = some [⟨"t1", 1, 1, 10, []⟩] ∧
    save_log [⟨"t1", 1, 1, 10, []⟩] (.parsed [⟨"t0", 0, 0, 9, []⟩]) =
      some ([⟨"t0", 0, 0, 9, []⟩] ++ [⟨"t1", 1, 1, 10, []⟩]) :=
  C9_unreadable_discards [⟨"t1", 1, 1, 10, []⟩] [⟨"t0", 0, 0, 9, []⟩]
    (by simp)

/-! ### RunTimer (run_timer.py)

    Python dicts preserving insertion order are modelled as association
    lists; defaultdict(list) as an association list defaulting to [].
    time.time() readings are explicit rational arguments. -/

/-- Association-list lookup (dict access / `in` test). -/
def lookupA {β : Type} : List (String × β) → String → Option β
  | [], _ => none
  | (k, v) :: t, k' => if k = k' then some v else lookupA t k'

/-- Association-list update: replace the value at the key if present, append
the key at the end otherwise (Python dict assignment semantics). -/
def updateA {β : Type} (l : List (String × β)) (k : String) (f : Option β → β) :
    List (String × β) :=
  match l with
  | [] => [(k, f none)]
  | (k', v) :: t =>
      if k' = k then (k', f (some v)) :: t else (k', v) :: updateA t k f

/-- One persisted telemetry line (_persist_run lines 61-73): phases is the
current run with underscore-keys removed, values rounded to 3 decimals. -/
structure RunRecord where
  ts : ℚ
  phases : List (String × ℚ)
  total : ℚ
deriving DecidableEq

/-- Full RunTimer state (fields of __init__, lines 20-25), together with the
sequence of records appended to the persistent JSONL log. -/
structure TimerState where
  active : List (String × ℚ)
  currentRun : List (String × ℚ)
  history : List (String × List ℚ)
  runStart : Option ℚ
  phaseOrder : List String
  persisted : List RunRecord

/-- history[phase].append(duration) on the defaultdict(list). -/
def histAppend (h : List (String × List ℚ)) (p : String) (d : ℚ) :
    List (String × List ℚ) :=
  updateA h p (fun o => o.getD [] ++ [d])

/-- _flush_run (lines 75-78): fold every current-run phase total into the
history, then clear the current run. -/
def flushRun (st : TimerState) : TimerState :=
  { st with
    history := st.currentRun.foldl (fun h pd => histAppend h pd.1 pd.2)
      st.history
    currentRun := [] }

/-- start_run (lines 27-34): flush a still-mid-flight run into history, then
reset the per-run state and record the start time. -/
def start_run (st : TimerState) (now : ℚ) : TimerState :=
  let st1 := if st.currentRun = [] then st else flushRun st
  { st1 with
    currentRun := [],
    active := [],
    phaseOrder := [],
    runStart := some now }

/-- start (lines 36-38): record (overwrite) the begin timestamp of a phase. -/
def startPhase (st : TimerState) (phase : String) (now : ℚ) : TimerState :=
  { st with active := updateA st.active phase (fun _ => now) }

/-- stop (lines 40-48): a phase with no pending start returns 0 and changes
nothing; otherwise pop the begin timestamp, accumulate the elapsed time into
the current run, track first-seen order, and return the duration. -/
def stop (st : TimerState) (phase : String) (now : ℚ) : ℚ × TimerState :=
  match lookupA st.active phase with
  | none => (0, st)
  | some t0 =>
      let duration := now - t0
      (duration,
        { st with
          active := st.active.filter (fun pd => pd.1 ≠ phase),
          currentRun := updateA st.currentRun phase
            (fun o => o.getD 0 + duration),
          phaseOrder :=
            if st.phaseOrder.contains phase then st.phaseOrder
            else st.phaseOrder ++ [phase] })

/-- Banker's rounding (Python round()): ties go to the even integer. -/
def pyround (q : ℚ) : ℤ :=
  let f := ⌊q⌋
  let frac := q - f
  if frac < 1 / 2 then f
  else if 1 / 2 < frac then f + 1
  else if f % 2 = 0 then f else f + 1

/-- Python round(v, 3). -/
def round3 (q : ℚ) : ℚ := (pyround (q * 1000) : ℚ) / 1000

/-- end_run (lines 50-59): no-op without an active run; otherwise store the
wall total under "_total", append one record to the persistent log, flush the
run into history, and clear the run start.  (The source reads time.time()
twice, once for the total and once for the record timestamp; both readings
are modelled by `now`.) -/
def end_run (st : TimerState) (now : ℚ) : TimerState :=
  match st.runStart with
  | none => st
  | some t0 =>
      let total := now - t0
      let cr := updateA st.currentRun "_total" (fun _ => total)
      let record : RunRecord :=
        { ts := now,
          phases := (cr.filter (fun pd => ¬ pd.1.startsWith "_")).map
            (fun pd => (pd.1, round3 pd.2)),
          total := round3 total }
      let st1 := flushRun
        { st with
          currentRun := cr,
          persisted := st.persisted ++ [record] }
      { st1 with runStart := none }

/-- C6: stopping a phase that has no pending start returns 0 and leaves the
whole timer state (current-run totals, phase order, history, everything)
unchanged. -/
theorem C6_stop_never_started (st : TimerState) (phase : String) (now : ℚ)
    (h : lookupA st.active phase = none) :
    stop st phase now = (0, st) := by
  unfold stop
  rw [h]

/-- Witness for C6 on the freshly initialized timer state. -/
theorem C6_stop_never_started_witness :
    stop ⟨[], [], [], none, [], []⟩ "pickit" 5 =
      (0, ⟨[], [], [], none, [], []⟩) :=
  C6_stop_never_started ⟨[], [], [], none, [], []⟩ "pickit" 5 rfl

theorem lookupA_histAppend (h : List (String × List ℚ)) (p q : String)
    (d : ℚ) :
    lookupA (histAppend h p d) q =
      if p = q then some ((lookupA h q).getD [] ++ [d]) else lookupA h q := by
  induction h with
  | nil => simp only [histAppend, updateA, lookupA]
  | cons kv t ih =>
    obtain ⟨k, v⟩ := kv
    simp only [histAppend, updateA, lookupA] at ih ⊢
    split_ifs <;> simp_all [lookupA]

theorem lookupA_foldl_histAppend_notMem (l : List (String × ℚ))
    (h : List (String × List ℚ)) (p : String)
    (hp : ∀ pd ∈ l, pd.1 ≠ p) :
    lookupA (l.foldl (fun acc pd => histAppend acc pd.1 pd.2) h) p =
      lookupA h p := by
  induction l generalizing h with
  | nil => rfl
  | cons pd t ih =>
    rw [List.foldl_cons]
    rw [ih _ (fun x hx => hp x (List.mem_cons_of_mem pd hx))]
    rw [lookupA_histAppend]
    rw [if_neg (hp pd (List.mem_cons_self pd t))]

theorem lookupA_foldl_histAppend (l : List (String × ℚ))
    (h : List (String × List ℚ)) (p : String) (d : ℚ)
    (hnd : (l.map Prod.fst).Nodup) (hmem : (p, d) ∈ l) :
    lookupA (l.foldl (fun acc pd => histAppend acc pd.1 pd.2) h) p =
      some ((lookupA h p).getD [] ++ [d]) := by
  induction l generalizing h with
  | nil => simp at hmem
  | cons pd t ih =>
    rw [List.map_cons, List.nodup_cons] at hnd
    rcases List.mem_cons.mp hmem with heq | hmem'
    · subst heq
      rw [List.foldl_cons]
      rw [lookupA_foldl_histAppend_notMem t _ p
        (fun x hx hc => hnd.1 (List.mem_map.mpr ⟨x, hx, hc⟩))]
      rw [lookupA_histAppend, if_pos rfl]
    · have hne : pd.1 ≠ p := fun hc =>
        hnd.1 (List.mem_map.mpr ⟨(p, d), hmem', hc.symm⟩)
      rw [List.foldl_cons]
      rw [ih _ hnd.2 hmem']
      rw [lookupA_histAppend, if_neg hne]

/-- C10: starting a new run while a previous run is mid-flight appends each of
its accumulated phase totals to that phase's in-memory history, but writes
nothing to the persisted telemetry log; among the timer operations, only
end_run (with an active run) appends a persisted record, and it appends
exactly one. -/
theorem C10_start_run_folds_without_persisting (st : TimerState)
    (p : String) (d now : ℚ)
    (hnd : (st.currentRun.map Prod.fst).Nodup)
    (hmem : (p, d) ∈ st.currentRun) :
    ((start_run st now).persisted = st.persisted ∧
      lookupA (start_run st now).history p =
        some ((lookupA st.history p).getD [] ++ [d])) ∧
    (startPhase st p now).persisted = st.persisted ∧
    ((stop st p now).2).persisted = st.persisted ∧
    (st.runStart = none → (end_run st now).persisted = st.persisted) ∧
    (∀ t0, st.runStart = some t0 →
      (end_run st now).persisted.length = st.persisted.length + 1) := by
  have hne : st.currentRun ≠ [] := by
    intro hc
    rw [hc] at hmem
    simp at hmem
  refine ⟨⟨?_, ?_⟩, rfl, ?_, ?_, ?_⟩
  · unfold start_run
    rw [if_neg hne]
    rfl
  · unfold start_run
    rw [if_neg hne]
    exact lookupA_foldl_histAppend st.currentRun st.history p d hnd hmem
  · unfold stop
    cases lookupA st.active p <;> rfl
  · intro h0
    unfold end_run
    rw [h0]
  · intro t0 h0
    unfold end_run
    rw [h0]
    simp [flushRun]

/-- Witness for C10 on a concrete mid-flight state with one accumulated
phase. -/
theorem C10_start_run_folds_without_persisting_witness :
    ((start_run ⟨[], [("kill", 7)], [], some 0, ["kill"], []⟩ 9).persisted
        = [] ∧
      lookupA
        (start_run ⟨[], [("kill", 7)], [], some 0, ["kill"], []⟩ 9).history
        "kill" = some ([] ++ [7])) ∧
    (startPhase ⟨[], [("kill", 7)], [], some 0, ["kill"], []⟩ "kill" 9).persisted
      = [] ∧
    ((stop ⟨[], [("kill", 7)], [], some 0, ["kill"], []⟩ "kill" 9).2).persisted
      = [] ∧
    ((⟨[], [("kill", 7)], [], some 0, ["kill"], []⟩ : TimerState).runStart = none →
      (end_run ⟨[], [("kill", 7)], [], some 0, ["kill"], []⟩ 9).persisted = []) ∧
    (∀ t0,
      (⟨[], [("kill", 7)], [], some 0, ["kill"], []⟩ : TimerState).runStart
        = some t0 →
      (end_run ⟨[], [("kill", 7)], [], some 0, ["kill"], []⟩ 9).persisted.length
        = List.length ([] : List RunRecord) + 1) := by
  have h := C10_start_run_folds_without_persisting
    ⟨[], [("kill", 7)], [], some 0, ["kill"], []⟩ "kill" 7 9
    (by simp) (by simp)
  have hl : (lookupA ([] : List (String × List ℚ)) "kill").getD [] = [] := rfl
  refine ⟨⟨h.1.1, ?_⟩, h.2.1, h.2.2.1, h.2.2.2.1, h.2.2.2.2⟩
  rw [h.1.2]
  rfl

/-! ### Bezier curve generation (humanizer.bezier_points lines 54-146)

    All machine-float arithmetic is carried out exactly over ℚ.  The source
    computes distance = math.sqrt(dsq); the (generally irrational) distance
    is passed as an explicit argument `dist`, related to the squared distance
    by hypotheses in the theorems.  Every random draw of the function body is
    a field of `BezierRand`; the Gaussian noise draws (random.gauss(0,
    noise_scale)) are modelled by their drawn values directly. -/

/-- The random draws consumed by one call of bezier_points, in source
order. -/
structure BezierRand where
  offsetRatio : ℚ
  cubicCoin : Bool
  t1Jit : ℚ
  t2Jit : ℚ
  side1 : ℚ
  sameSideCoin : Bool
  c1ScaleX : ℚ
  c1ScaleY : ℚ
  c2ScaleX : ℚ
  c2ScaleY : ℚ
  qJit : ℚ
  qSide : ℚ
  qScaleX : ℚ
  qScaleY : ℚ
  noiseX : ℕ → ℚ
  noiseY : ℕ → ℚ

/-- The unrounded curve samples (lines 81-142 without the int(round(.))):
control-point placement, the quadratic/cubic Bezier blend at n+1 evenly
spaced parameters, plus the additive noise draws. -/
def bezierSamples (sx sy ex ey : ℚ) (n : ℕ) (dist : ℚ) (r : BezierRand) :
    List (ℚ × ℚ) :=
  let dx := ex - sx
  let dy := ey - sy
  let perpLen := max dist 1
  let px := -dy / perpLen
  let py := dx / perpLen
  let offset := dist * r.offsetRatio
  let useCubic := 200 < dist ∨ r.cubicCoin = true
  if useCubic then
    let t1 := 1 / 4 + r.t1Jit
    let t2 := 3 / 4 + r.t2Jit
    let side2 := if r.sameSideCoin then r.side1 else -r.side1
    let cp1x := sx + dx * t1 + px * offset * r.side1 * r.c1ScaleX
    let cp1y := sy + dy * t1 + py * offset * r.side1 * r.c1ScaleY
    let cp2x := sx + dx * t2 + px * offset * side2 * r.c2ScaleX
    let cp2y := sy + dy * t2 + py * offset * side2 * r.c2ScaleY
    (List.range (n + 1)).map fun (i : ℕ) =>
      let t : ℚ := (i : ℚ) / (n : ℚ)
      let u := 1 - t
      (u ^ 3 * sx + 3 * u ^ 2 * t * cp1x + 3 * u * t ^ 2 * cp2x + t ^ 3 * ex
          + r.noiseX i,
        u ^ 3 * sy + 3 * u ^ 2 * t * cp1y + 3 * u * t ^ 2 * cp2y + t ^ 3 * ey
          + r.noiseY i)
  else
    let tcp := 1 / 2 + r.qJit
    let cpx := sx + dx * tcp + px * offset * r.qSide * r.qScaleX
    let cpy := sy + dy * tcp + py * offset * r.qSide * r.qScaleY
    (List.range (n + 1)).map fun (i : ℕ) =>
      let t : ℚ := (i : ℚ) / (n : ℚ)
      let u := 1 - t
      (u ^ 2 * sx + 2 * u * t * cpx + t ^ 2 * ex + r.noiseX i,
        u ^ 2 * sy + 2 * u * t * cpy + t ^ 2 * ey + r.noiseY i)

/-- bezier_points.  Returns [end] when distance < 5 (equivalently dist² < 25);
otherwise samples num_points+1 points, rounds each to integer coordinates,
and overwrites the final sample with the exact target. -/
def bezier_points (s e : ℤ × ℤ) (numPoints : Option ℕ) (dist : ℚ)
    (r : BezierRand) : List (ℤ × ℤ) :=
  if dist < 5 then [e]
  else
    let n : ℕ :=
      match numPoints with
      | some k => k
      | none => min (max 15 (Int.toNat ⌊dist / 5⌋)) 100
    let pts := (bezierSamples (s.1 : ℚ) (s.2 : ℚ) (e.1 : ℚ) (e.2 : ℚ) n dist
      r).map (fun q => (pyround q.1, pyround q.2))
    pts.dropLast ++ [(pyround (e.1 : ℚ), pyround (e.2 : ℚ))]

theorem pyround_intCast (n : ℤ) : pyround (n : ℚ) = n := by
  unfold pyround
  rw [Int.floor_intCast]
  norm_num

theorem bezier_points_ne_nil (s e : ℤ × ℤ) (numPoints : Option ℕ) (dist : ℚ)
    (r : BezierRand) : bezier_points s e numPoints dist r ≠ [] := by
  unfold bezier_points
  split_ifs
  · simp
  · simp

theorem bezier_points_getLast (s e : ℤ × ℤ) (numPoints : Option ℕ)
    (dist : ℚ) (r : BezierRand) (h : ¬ dist < 5) :
    (bezier_points s e numPoints dist r).getLast? = some e := by
  unfold bezier_points
  rw [if_neg h]
  rw [List.getLast?_concat]
  rw [pyround_intCast, pyround_intCast]

/-- C2: with `dist` the true Euclidean distance between the integer start and
end points (dist ≥ 0 and dist² the squared distance), the generated curve is
exactly [end] when the squared distance is < 25 (distance < 5), and otherwise
is non-empty with final element exactly the end point. -/
theorem C2_curve_endpoint (s e : ℤ × ℤ) (dist : ℚ) (r : BezierRand)
    (hd : 0 ≤ dist)
    (hsq : dist * dist = (((e.1 - s.1) ^ 2 + (e.2 - s.2) ^ 2 : ℤ) : ℚ)) :
    ((e.1 - s.1) ^ 2 + (e.2 - s.2) ^ 2 < 25 →
      bezier_points s e none dist r = [e]) ∧
    (25 ≤ (e.1 - s.1) ^ 2 + (e.2 - s.2) ^ 2 →
      bezier_points s e none dist r ≠ [] ∧
      (bezier_points s e none dist r).getLast? = some e) := by
  constructor
  · intro hlt
    have hq : dist * dist < 25 := by
      rw [hsq]
      have : (((e.1 - s.1) ^ 2 + (e.2 - s.2) ^ 2 : ℤ) : ℚ) < ((25 : ℤ) : ℚ) :=
        by exact_mod_cast hlt
      simpa using this
    have h5 : dist < 5 := by nlinarith
    unfold bezier_points
    rw [if_pos h5]
  · intro hge
    have hq : (25 : ℚ) ≤ dist * dist := by
      rw [hsq]
      have : ((25 : ℤ) : ℚ) ≤ (((e.1 - s.1) ^ 2 + (e.2 - s.2) ^ 2 : ℤ) : ℚ) :=
        by exact_mod_cast hge
      simpa using this
    have h5 : ¬ dist < 5 := by nlinarith
    exact ⟨bezier_points_ne_nil s e none dist r,
      bezier_points_getLast s e none dist r h5⟩

/-- A fixed assignment of the random draws, used by concrete witnesses. -/
def bezierRand0 : BezierRand :=
  { offsetRatio := 1 / 5,
    cubicCoin := false,
    t1Jit := 0,
    t2Jit := 0,
    side1 := 1,
    sameSideCoin := true,
    c1ScaleX := 1,
    c1ScaleY := 1,
    c2ScaleX := 1,
    c2ScaleY := 1,
    qJit := 0,
    qSide := 1,
    qScaleX := 1,
    qScaleY := 1,
    noiseX := fun _ => 0,
    noiseY := fun _ => 0 }

/-- Witness for C2 on both branches: (0,0)→(0,3) (distance 3 < 5) yields
exactly [(0,3)]; (0,0)→(3,4) (distance 5) yields a non-empty curve ending
exactly at (3,4). -/
theorem C2_curve_endpoint_witness :
    (bezier_points (0, 0) (0, 3) none 3 bezierRand0 = [(0, 3)]) ∧
    (bezier_points (0, 0) (3, 4) none 5 bezierRand0 ≠ [] ∧
      (bezier_points (0, 0) (3, 4) none 5 bezierRand0).getLast?
        = some (3, 4)) :=
  ⟨(C2_curve_endpoint (0, 0) (0, 3) 3 bezierRand0 (by norm_num)
      (by norm_num)).1 (by norm_num),
   (C2_curve_endpoint (0, 0) (3, 4) 5 bezierRand0 (by norm_num)
      (by norm_num)).2 (by norm_num)⟩

/-! ### Relay move duration (custom_mouse._move_arduino lines 72-74)

    duration = min(0.5, max(0.05, dist * 0.0004) * uniform(lo, hi))
    step_delay = duration / max(len(points), 1) -/

/-- The total movement duration as the source computes it: the uniform speed
factor multiplies the floored product before the 0.5 s cap is applied. -/
def moveDuration (dist u : ℚ) : ℚ :=
  min (1 / 2) (max (1 / 20) (dist * (4 / 10000)) * u)

/-- The duration as §4.3 of the spec words it: clamp(dist·0.0004, 0.05, 0.5)
multiplied by the uniform draw. -/
def moveDurationSpec (dist u : ℚ) : ℚ :=
  min (1 / 2) (max (1 / 20) (dist * (4 / 10000))) * u

/-- The per-step delay between consecutive curve points. -/
def stepDelay (dist u : ℚ) (points : ℕ) : ℚ :=
  moveDuration dist u / (max points 1 : ℕ)

/-- C3 counterexample: at distance 2500 px and a uniform speed-factor draw of
0.4 (inside the default [0.4, 0.6] range), the source computes a duration of
0.4 s, while clamp(2500·0.0004, 0.05, 0.5) × 0.4 = 0.2 s — the claimed
formula does not match the code. -/
theorem C3_counterexample :
    moveDuration 2500 (2 / 5) = 2 / 5 ∧
    moveDurationSpec 2500 (2 / 5) = 1 / 5 ∧
    moveDuration 2500 (2 / 5) ≠ moveDurationSpec 2500 (2 / 5) := by
  refine ⟨?_, ?_, ?_⟩ <;> norm_num [moveDuration, moveDurationSpec]

/-- C3 amended: the duration is min(0.5, max(0.05, dist·0.0004) · u) — the
uniform factor is applied before the 0.5 s cap, not after the full clamp — so
it never exceeds 0.5 s, and it equals the uncapped product whenever that
product is at most 0.5 s; the per-step delay is the duration divided by the
curve's point count, the curve being always non-empty (the source's
max(len(points), 1) guard never changes the count). -/
theorem C3_duration (dist u : ℚ) (s e : ℤ × ℤ) (numPoints : Option ℕ)
    (r : BezierRand)
    (h : max (1 / 20) (dist * (4 / 10000)) * u ≤ 1 / 2) :
    moveDuration dist u = max (1 / 20) (dist * (4 / 10000)) * u ∧
    moveDuration dist u ≤ 1 / 2 ∧
    1 ≤ (bezier_points s e numPoints dist r).length ∧
    stepDelay dist u (bezier_points s e numPoints dist r).length =
      moveDuration dist u / (bezier_points s e numPoints dist r).length := by
  have hlen : 1 ≤ (bezier_points s e numPoints dist r).length := by
    have hne := bezier_points_ne_nil s e numPoints dist r
    cases hl : bezier_points s e numPoints dist r with
    | nil => exact absurd hl hne
    | cons a t => simp
  refine ⟨min_eq_right h, min_le_left _ _, hlen, ?_⟩
  unfold stepDelay
  congr 1
  have : max (bezier_points s e numPoints dist r).length 1 =
      (bezier_points s e numPoints dist r).length := max_eq_left hlen
  rw [this]

/-- Witness for C3 at distance 100 (the move (0,0)→(100,0)) and speed factor
0.5. -/
theorem C3_duration_witness :
    moveDuration 100 (1 / 2) = max (1 / 20) (100 * (4 / 10000)) * (1 / 2) ∧
    moveDuration 100 (1 / 2) ≤ 1 / 2 ∧
    1 ≤ (bezier_points (0, 0) (100, 0) none 100 bezierRand0).length ∧
    stepDelay 100 (1 / 2)
        (bezier_points (0, 0) (100, 0) none 100 bezierRand0).length =
      moveDuration 100 (1 / 2) /
        (bezier_points (0, 0) (100, 0) none 100 bezierRand0).length :=
  C3_duration 100 (1 / 2) (0, 0) (100, 0) none bezierRand0 (by norm_num)

/-! ### Offline outlier analysis (analyze_timing.analyze lines 98-122)

    One telemetry record per JSONL line.  The summary pass (lines 66-80)
    stores phase_stats[phase] = (mean, stdev), stdev being a machine-float
    square root (statistics.stdev); the outlier pass only reads that dict, so
    it is modelled here as an explicit (mean, stdev) table parameter, exactly
    as the loop of lines 105-120 consumes it. -/

/-- One parsed telemetry record. -/
structure TRecord where
  ts : Option ℚ
  phases : List (String × ℚ)
  total : Option ℚ
deriving DecidableEq

/-- One reported outlier: the tuple (z, phase, duration, mean) appended at
line 115. -/
structure OutlierEntry where
  z : ℚ
  phase : String
  duration : ℚ
  mean : ℚ
deriving DecidableEq

/-- Descending z order, the sort key of line 118 (reverse=True on key z). -/
def zDesc (a b : OutlierEntry) : Prop := b.z ≤ a.z

instance : DecidableRel zDesc := fun a b =>
  inferInstanceAs (Decidable (b.z ≤ a.z))

instance : IsTotal OutlierEntry zDesc := ⟨fun a b => le_total b.z a.z⟩

instance : IsTrans OutlierEntry zDesc := ⟨fun _ _ _ h1 h2 => le_trans h2 h1⟩

/-- Lines 109-115 for one (phase, duration) pair: skip phases without stats,
skip stdev ≤ 0, compute z = (duration - mean) / stdev, keep it iff
z ≥ outlier_z. -/
def zEntry (stats : List (String × (ℚ × ℚ))) (outlierZ : ℚ)
    (pd : String × ℚ) : Option OutlierEntry :=
  match lookupA stats pd.1 with
  | none => none
  | some ms =>
      if 0 < ms.2 then
        if outlierZ ≤ (pd.2 - ms.1) / ms.2 then
          some ⟨(pd.2 - ms.1) / ms.2, pd.1, pd.2, ms.1⟩
        else none
      else none

/-- The outliers reported for one run, sorted by z descending (lines
108-120). -/
def runOutliers (stats : List (String × (ℚ × ℚ))) (outlierZ : ℚ)
    (rec : TRecord) : List OutlierEntry :=
  List.insertionSort zDesc (rec.phases.filterMap (zEntry stats outlierZ))

/-- The whole outlier pass: `none` models the early return of lines 99-101
(fewer than 5 records: insufficiency is reported and no z-score is ever
computed); otherwise one sorted outlier list per record. -/
def outlierPass (stats : List (String × (ℚ × ℚ))) (outlierZ : ℚ)
    (records : List TRecord) : Option (List (List OutlierEntry)) :=
  if records.length < 5 then none
  else some (records.map (runOutliers stats outlierZ))

/-- C7: the outlier pass computes nothing with fewer than 5 records; with at
least 5, it reports per record, and any phase of any record with known stats,
positive stdev, and a value more than outlierZ standard deviations above its
mean appears (with its z-score) among that record's reported outliers, which
are sorted by z descending. -/
theorem C7_outlier_pass (stats : List (String × (ℚ × ℚ))) (outlierZ : ℚ)
    (records : List TRecord) :
    (records.length < 5 → outlierPass stats outlierZ records = none) ∧
    (5 ≤ records.length →
      outlierPass stats outlierZ records =
        some (records.map (runOutliers stats outlierZ)) ∧
      ∀ rec ∈ records, ∀ pd ∈ rec.phases, ∀ m s : ℚ,
        lookupA stats pd.1 = some (m, s) → 0 < s →
        outlierZ < (pd.2 - m) / s →
        (⟨(pd.2 - m) / s, pd.1, pd.2, m⟩ : OutlierEntry) ∈
          runOutliers stats outlierZ rec) ∧
    ∀ rec : TRecord, List.Sorted zDesc (runOutliers stats outlierZ rec) := by
  refine ⟨fun h => by unfold outlierPass; rw [if_pos h],
    fun h => ⟨by unfold outlierPass; rw [if_neg (by omega)], ?_⟩,
    fun rec => List.sorted_insertionSort zDesc _⟩
  intro rec _ pd hpd m s hlook hs hz
  have hze : zEntry stats outlierZ pd =
      some ⟨(pd.2 - m) / s, pd.1, pd.2, m⟩ := by
    unfold zEntry
    rw [hlook]
    simp only
    rw [if_pos hs, if_pos (le_of_lt hz)]
  exact (List.mem_insertionSort zDesc).mpr
    (List.mem_filterMap.mpr ⟨pd, hpd, hze⟩)

/-- Witness for C7: with four records the pass reports nothing; with five
copies of a record whose "kill" phase took 10 s against stats mean 4, stdev
2 (z = 3 > 2.5), the pass runs and the outlier is reported. -/
theorem C7_outlier_pass_witness :
    outlierPass [("kill", (4, 2))] (5 / 2)
      (List.replicate 4 ⟨some 0, [("kill", 10)], some 10⟩) = none ∧
    outlierPass [("kill", (4, 2))] (5 / 2)
        (List.replicate 5 ⟨some 0, [("kill", 10)], some 10⟩) =
      some (List.replicate 5 ⟨some 0, [("kill", 10)], some 10⟩
        |>.map (runOutliers [("kill", (4, 2))] (5 / 2))) ∧
    (⟨((10 : ℚ) - 4) / 2, "kill", 10, 4⟩ : OutlierEntry) ∈
      runOutliers [("kill", (4, 2))] (5 / 2)
        ⟨some 0, [("kill", 10)], some 10⟩ :=
  ⟨(C7_outlier_pass [("kill", (4, 2))] (5 / 2)
      (List.replicate 4 ⟨some 0, [("kill", 10)], some 10⟩)).1 (by simp),
   ((C7_outlier_pass [("kill", (4, 2))] (5 / 2)
      (List.replicate 5 ⟨some 0, [("kill", 10)], some 10⟩)).2.1
        (by simp)).1,
   ((C7_outlier_pass [("kill", (4, 2))] (5 / 2)
      (List.replicate 5 ⟨some 0, [("kill", 10)], some 10⟩)).2.1
        (by simp)).2
      ⟨some 0, [("kill", 10)], some 10⟩ (by simp)
      ("kill", 10) (by simp) 4 2 rfl (by norm_num) (by norm_num)⟩

end Pindle
